import Mathlib

/-!
Verification of the schema-reconciliation and compatibility-mapping layer of
the pwmoi backend (seed script `ensureColumn` plus the entity mappers and the
resilient aggregate fetch of `server.js`), via a shallow embedding.

Conventions of the embedding:
* a live table's column set is an association list from column name to the
  data stored under that column (`none` models SQL NULL);
* JavaScript values are modelled by `Val`, with `Val.undef` standing for
  `undefined` (also used for "property absent", which is indistinguishable
  from a property holding `undefined` when read);
* JavaScript objects (rows, payloads) are association lists `Row`; reading a
  missing property yields `Val.undef`, exactly as in JavaScript;
* `Option Row` models an object-or-null argument (the mappers guard with
  `if (!row) return null`).
-/

/-! ## Schema reconciler (seed script, `ensureColumn`) -/

/-- One column-reconciliation directive `(table, legacyColumn, currentColumn,
definition)`, as passed to `ensureColumn` in the seed script. -/
structure Directive where
  table : String
  oldName : String
  newName : String
  definition : String
deriving Repr, DecidableEq

/-- The column set of one live table: an association list from column name to
the data stored in that column (`none` models SQL NULL). -/
abbrev Table := List (String × Option String)

/-- Column-existence check, modelling `SHOW COLUMNS FROM table LIKE name`. -/
def hasCol (t : Table) (c : String) : Bool :=
  match t with
  | [] => false
  | (k, _) :: rest => if k = c then true else hasCol rest c

/-- The data stored under column `c`, or `none` when the column is absent. -/
def colData (t : Table) (c : String) : Option (Option String) :=
  match t with
  | [] => none
  | (k, v) :: rest => if k = c then some v else colData rest c

/-- Effect on the column set of `ALTER TABLE .. CHANGE COLUMN old new ..`:
the legacy column is renamed, keeping its data. -/
def renameCol : Table → String → String → Table
  | [], _, _ => []
  | (k, v) :: rest, old, new =>
      (if k = old then (new, v) else (k, v)) :: renameCol rest old new

/-- Effect on the column set of `ALTER TABLE .. ADD COLUMN c ..`: a fresh
column holding no data yet. -/
def addCol (t : Table) (c : String) : Table :=
  t ++ [(c, none)]

/-- The schema-altering statement issued by one `ensureColumn` call. -/
inductive SchemaAction where
  | rename (table old new defn : String)
  | addColumn (table col defn : String)
  | noop
deriving Repr, DecidableEq

/-- The decision logic of `ensureColumn(conn, table, oldName, newName,
definition)` from the seed script: check both columns, rename when only the
legacy one exists and the names differ, add when neither exists, otherwise
leave the table untouched. -/
def ensureColumn (t : Table) (d : Directive) : SchemaAction :=
  let oldExists := hasCol t d.oldName
  let newExists := hasCol t d.newName
  if oldExists = true ∧ ¬newExists = true ∧ d.oldName ≠ d.newName then
    SchemaAction.rename d.table d.oldName d.newName d.definition
  else if ¬oldExists = true ∧ ¬newExists = true then
    SchemaAction.addColumn d.table d.newName d.definition
  else
    SchemaAction.noop

/-- Apply a schema-altering statement to a table's column set. -/
def applyAction (t : Table) : SchemaAction → Table
  | SchemaAction.rename _ old new _ => renameCol t old new
  | SchemaAction.addColumn _ c _ => addCol t c
  | SchemaAction.noop => t

/-- One full `ensureColumn` call: decide, then execute. -/
def reconcile (t : Table) (d : Directive) : Table :=
  applyAction t (ensureColumn t d)

/-- Run a directive list in order, returning the final column set and the
list of statements issued (one per directive, `noop` when nothing ran). -/
def runRec : Table → List Directive → Table × List SchemaAction
  | t, [] => (t, [])
  | t, d :: ds =>
      let a := ensureColumn t d
      let r := runRec (applyAction t a) ds
      (r.1, a :: r.2)

/-- Well-formedness of a directive list: no directive's legacy column is
another directive's current column, except for the self-rename directives
(legacy = current) the seed script also contains. -/
def wfDirectives (ds : List Directive) : Prop :=
  ∀ d ∈ ds, ∀ d' ∈ ds, d'.oldName = d.newName → d'.oldName = d'.newName

instance (ds : List Directive) : Decidable (wfDirectives ds) := by
  unfold wfDirectives; infer_instance

/-! ## JavaScript value and object model -/

/-- A JavaScript value as it occurs in rows, payloads and API shapes.
`undef` is `undefined` (also the result of reading an absent property);
`nan` is the number NaN; numerics are modelled over the integers, which
covers every column of this schema (INT/TINYINT ids and flags, and strings).
Arrays and objects carry their elements / string-keyed fields. -/
inductive Val where
  | undef
  | null
  | nan
  | num (n : Int)
  | str (s : String)
  | bool (b : Bool)
  | arr (elems : List Val)
  | obj (fields : List (String × Val))

/-- A JavaScript object (a DB row, an API payload, or a mapper result):
an association list from property name to value. -/
abbrev Row := List (String × Val)

/-- Property read `r.k`: the first binding for `k`, else `undefined`. -/
def getF (r : Row) (k : String) : Val :=
  match r with
  | [] => Val.undef
  | (k', v) :: rest => if k' = k then v else getF rest k

/-- Whether the object has the property `k` at all (`'k' in obj`), which in
JavaScript is distinct from the property holding `undefined`. -/
def hasKey (r : Row) (k : String) : Bool :=
  match r with
  | [] => false
  | (k', _) :: rest => if k' = k then true else hasKey rest k

/-- Nullish coalescing `a ?? b`: `b` when `a` is `undefined` or `null`,
otherwise `a`. -/
def nci (a b : Val) : Val :=
  match a with
  | Val.undef => b
  | Val.null => b
  | _ => a

/-- JavaScript truthiness: `undefined`, `null`, `NaN`, `0`, `''` and `false`
are falsy; every other value (including any object or array) is truthy. -/
def truthy : Val → Bool
  | Val.undef => false
  | Val.null => false
  | Val.nan => false
  | Val.num n => decide (n ≠ 0)
  | Val.str s => decide (s ≠ "")
  | Val.bool b => b
  | Val.arr _ => true
  | Val.obj _ => true

/-- Logical or `a || b`: `a` when truthy, else `b`. -/
def jsOr (a b : Val) : Val :=
  if truthy a then a else b

/-- The `Number(x)` coercion on the integer fragment: `null` and `''` give 0,
booleans give 0/1, integer numerals and integer-valued strings pass through,
`undefined` and non-numeric strings give NaN. Plain objects give NaN as in
JavaScript; array coercion (via string conversion) is outside the modelled
fragment and also yields NaN here, which no claim exercises. -/
def toNumber : Val → Val
  | Val.undef => Val.nan
  | Val.null => Val.num 0
  | Val.nan => Val.nan
  | Val.num n => Val.num n
  | Val.bool b => Val.num (if b then 1 else 0)
  | Val.str s =>
      match s.trim.toInt? with
      | some n => Val.num n
      | none => if s.trim = "" then Val.num 0 else Val.nan
  | Val.arr _ => Val.nan
  | Val.obj _ => Val.nan

/-- Conditional property assignment `if (v !== undefined) obj.k = v;`,
appending the binding in program order. -/
def setIf (r : Row) (k : String) (v : Val) : Row :=
  match v with
  | Val.undef => r
  | _ => r ++ [(k, v)]

/-- Whether a value is `undefined` (the `x !== undefined` test, negated). -/
def isUndef : Val → Bool
  | Val.undef => true
  | _ => false

/-- The value stored by `if (isVerified !== undefined) dbObj.is_verified =
Number(isVerified ? 1 : 0);`: `undefined` keeps the property absent (via
`setIf`), any defined value is renormalized through truthiness to 0/1. -/
def verifiedStore (v : Val) : Val :=
  match v with
  | Val.undef => Val.undef
  | v => Val.num (if truthy v then 1 else 0)

/-- The helper `safeJsonParse(value, fallback)` of server.js: `fallback` for
nullish input, the value itself when it is already an object, otherwise
`JSON.parse` with the fallback on a parse error. The ambient `JSON.parse` is
passed explicitly as `parse`, returning `none` where it would throw. -/
def safeJsonParse (parse : String → Option Val) (value fallback : Val) : Val :=
  match value with
  | Val.undef => fallback
  | Val.null => fallback
  | Val.obj fs => Val.obj fs
  | Val.arr xs => Val.arr xs
  | Val.str s => (parse s).getD fallback
  | Val.num n => Val.num n
  | Val.bool b => Val.bool b
  | Val.nan => fallback

/-! ## Row-to-API mappers (server.js) -/

/-- `dbUserToApi(row)`: null for a null row, otherwise the API user shape,
resolving avatar, verified flag, phone, media name and certification through
their current-then-legacy fallback chains. -/
def dbUserToApi : Option Row → Option Row
  | none => none
  | some row => some [
      ("id", getF row "id"),
      ("name", getF row "name"),
      ("email", getF row "email"),
      ("password", getF row "password"),
      ("role", getF row "role"),
      ("avatarUrl", nci (getF row "avatar_url") (nci (getF row "avatarUrl") Val.null)),
      ("isVerified", toNumber (nci (getF row "is_verified") (nci (getF row "isVerified") (Val.num 0)))),
      ("phoneNumber", nci (getF row "phone_number") (nci (getF row "phoneNumber") Val.null)),
      ("mediaName", nci (getF row "media_name") (nci (getF row "mediaName") Val.null)),
      ("position", nci (getF row "position") Val.null),
      ("ukwCertification", nci (getF row "ukw_certification") (nci (getF row "ukwCertification") Val.null))]

/-- `dbPartnerToApi(row)` from server.js. -/
def dbPartnerToApi : Option Row → Option Row
  | none => none
  | some row => some [
      ("id", getF row "id"),
      ("name", getF row "name"),
      ("logoUrl", nci (getF row "logo_url") (nci (getF row "logoUrl") Val.null)),
      ("link", nci (getF row "link") Val.null)]

/-- `dbStructureToApi(row)` from server.js. -/
def dbStructureToApi : Option Row → Option Row
  | none => none
  | some row => some [
      ("id", getF row "id"),
      ("name", getF row "name"),
      ("position", getF row "position"),
      ("photoUrl", nci (getF row "photo_url") (nci (getF row "photoUrl") Val.null))]

/-- `dbArticleToApi(row)`: the cover resolves through the three historical
names and is emitted under both `coverImageUrl` and `imageUrl`. -/
def dbArticleToApi : Option Row → Option Row
  | none => none
  | some row =>
      let cover := nci (getF row "cover_image_url")
        (nci (getF row "coverImageUrl") (nci (getF row "imageUrl") Val.null))
      some [
        ("id", getF row "id"),
        ("title", getF row "title"),
        ("content", getF row "content"),
        ("snippet", getF row "snippet"),
        ("status", getF row "status"),
        ("authorId", getF row "authorId"),
        ("editorFeedback", nci (getF row "editor_feedback") (nci (getF row "editorFeedback") Val.null)),
        ("coverImageUrl", cover),
        ("imageUrl", cover)]

/-! ## API-to-DB mappers (server.js) -/

/-- `apiArticleToDb(payload)`: destructure (`payload || {}`), then assign
each defined field to its current column name; `coverImageUrl` overrides
`imageUrl` for the cover column; `id` passes through when present. -/
def apiArticleToDb (payload : Option Row) : Row :=
  let p := payload.getD []
  let cover := nci (getF p "coverImageUrl") (getF p "imageUrl")
  setIf (setIf (setIf (setIf (setIf (setIf (setIf (setIf []
    "title" (getF p "title"))
    "content" (getF p "content"))
    "snippet" (getF p "snippet"))
    "status" (getF p "status"))
    "authorId" (getF p "authorId"))
    "editor_feedback" (getF p "editorFeedback"))
    "cover_image_url" cover)
    "id" (getF p "id")

/-- `apiUserToDb(payload)`: destructure (`payload || {}`), then assign each
defined field to its current column name; `formalPhotoUrl` overrides
`avatarUrl` for the avatar column, and a defined `isVerified` is stored as
`Number(isVerified ? 1 : 0)`. The payload's `id` is not handled at all. -/
def apiUserToDb (payload : Option Row) : Row :=
  let p := payload.getD []
  let avatar := nci (getF p "formalPhotoUrl") (getF p "avatarUrl")
  setIf (setIf (setIf (setIf (setIf (setIf (setIf (setIf (setIf (setIf []
    "name" (getF p "name"))
    "email" (getF p "email"))
    "password" (getF p "password"))
    "role" (getF p "role"))
    "avatar_url" avatar)
    "is_verified" (verifiedStore (getF p "isVerified")))
    "phone_number" (getF p "phoneNumber"))
    "media_name" (getF p "mediaName"))
    "position" (getF p "position"))
    "ukw_certification" (getF p "ukwCertification")

/-- `apiStructureToDb(item)`: builds `{ name, position, photo_url }`
unconditionally (absent fields become properties holding `undefined`), then
adds `id` only when defined. -/
def apiStructureToDb (item : Option Row) : Row :=
  let p := item.getD []
  setIf [("name", getF p "name"), ("position", getF p "position"),
    ("photo_url", getF p "photoUrl")]
    "id" (getF p "id")

/-- `apiPartnerToDb(item)`: builds `{ name, logo_url, link }`
unconditionally, then adds `id` only when defined. -/
def apiPartnerToDb (item : Option Row) : Row :=
  let p := item.getD []
  setIf [("name", getF p "name"), ("logo_url", getF p "logoUrl"),
    ("link", getF p "link")]
    "id" (getF p "id")

/-! ## Aggregate fetch and response shaping (server.js, /api/all-data) -/

/-- `formatContactFromRow(row)`: null for a null row, otherwise the contact
projection with empty-string defaults and defensively parsed socials. -/
def formatContactFromRow (parse : String → Option Val) :
    Option Row → Option Row
  | none => none
  | some row => some [
      ("organizationName", jsOr (getF row "organizationName") (Val.str "")),
      ("address", jsOr (getF row "address") (Val.str "")),
      ("email", jsOr (getF row "email") (Val.str "")),
      ("phone", jsOr (getF row "phone") (Val.str "")),
      ("siteLogo", jsOr (getF row "logo_url") (Val.str "")),
      ("faviconUrl", jsOr (getF row "favicon_url") (Val.str "")),
      ("socials", safeJsonParse parse (getF row "socials") (Val.obj []))]

/-- The `formattedContact` computation of the /api/all-data handler: null
when the singleton query returned no row, else the projection of the first
row. -/
def formattedContact (parse : String → Option Val)
    (contactInfoRows : List Row) : Option Row :=
  match contactInfoRows with
  | [] => none
  | r :: _ => formatContactFromRow parse (some r)

/-- The `formattedProfile` computation of the /api/all-data handler: null
when the site_profile query returned no row; otherwise the profile shape,
where a string-typed `mission` is JSON-parsed with `[]` on error and a
non-string `mission` falls back to `[]` when falsy. -/
def formattedProfile (parse : String → Option Val)
    (profileContentRows : List Row) : Option Row :=
  match profileContentRows with
  | [] => none
  | rawProfile :: _ =>
      let missionData :=
        match getF rawProfile "mission" with
        | Val.str s => (parse s).getD (Val.arr [])
        | v => jsOr v (Val.arr [])
      some [
        ("about", jsOr (getF rawProfile "about") (Val.str "")),
        ("vision", jsOr (getF rawProfile "vision") (Val.str "")),
        ("mission", missionData),
        ("purpose", jsOr (getF rawProfile "purpose") (Val.str "")),
        ("legality", Val.obj [
          ("text", jsOr (getF rawProfile "legality_text") (Val.str "")),
          ("sk", jsOr (getF rawProfile "legality_sk") (Val.str ""))]),
        ("adArt", jsOr (getF rawProfile "ad_art") (Val.str ""))]

/-- `safeQuery(query, params)` of the /api/all-data handler: run the query
against the store (`runQuery`, returning an error where the driver would
throw) and swallow any failure into an empty row-set. -/
def safeQuery (runQuery : String → List Val → Except String (List Row))
    (query : String) (params : List Val) : List Row :=
  match runQuery query params with
  | Except.ok rows => rows
  | Except.error _ => []

/-- The `Promise.all` of `safeQuery` calls in the /api/all-data handler:
every query in the ordered batch is run and its row-set (empty on failure)
is placed at the query's own position. -/
def fetchAll (runQuery : String → List Val → Except String (List Row))
    (qs : List (String × List Val)) : List (List Row) :=
  qs.map fun q => safeQuery runQuery q.1 q.2

/-! ## Spec-side definition used by the refinement claim C5 -/

/-- Written from the spec's words for §4.2 `toApi` (claim C5): resolve an
attribute by walking a fixed priority list of column names, returning the
first value that is neither absent nor null, else the documented default. -/
def specResolve (row : Row) (keys : List String) (dflt : Val) : Val :=
  match keys with
  | [] => dflt
  | k :: ks =>
      match getF row k with
      | Val.undef => specResolve row ks dflt
      | Val.null => specResolve row ks dflt
      | v => v

/-! ## Concrete sample inputs used by witnesses -/

/-- The cyclic directive pair refuting the unrestricted form of claim C2. -/
def cycDirectives : List Directive :=
  [⟨"t", "a", "b", "TEXT"⟩, ⟨"t", "b", "a", "TEXT"⟩]

/-- The users directives of the seed script. -/
def usersDirectives : List Directive :=
  [⟨"users", "avatarUrl", "avatar_url", "VARCHAR(255)"⟩,
   ⟨"users", "isVerified", "is_verified", "TINYINT DEFAULT 0"⟩,
   ⟨"users", "phoneNumber", "phone_number", "VARCHAR(20)"⟩,
   ⟨"users", "mediaName", "media_name", "VARCHAR(100)"⟩,
   ⟨"users", "ukwCertification", "ukw_certification", "VARCHAR(50)"⟩]

/-- A JSON.parse stand-in that rejects every input, usable for inputs that
are not valid JSON (such as the literal text `not-json`). -/
def noParse : String → Option Val := fun _ => none

/-- Sample two-query batch for the aggregate-fetch witness. -/
def sampleQueries : List (String × List Val) :=
  [("SELECT * FROM users", []), ("SELECT * FROM articles", [])]

/-- Sample row-set returned by the succeeding sample query. -/
def sampleRows : List Row := [[("id", Val.num 1)]]

/-- Sample store in which only the articles query fails. -/
def sampleRunQuery (q : String) (_ : List Val) : Except String (List Row) :=
  if q = "SELECT * FROM articles" then Except.error "unknown table"
  else Except.ok sampleRows

/-! ### Reconciler lemmas -/

theorem hasCol_append (r s : Table) (c : String) :
    hasCol (r ++ s) c = (hasCol r c || hasCol s c) := by
  induction r with
  | nil => simp [hasCol]
  | cons p rest ih =>
      obtain ⟨k, v⟩ := p
      by_cases h : k = c <;> simp [hasCol, h, ih]

theorem hasCol_renameCol_self (t : Table) (old new : String)
    (h : hasCol t old = true) : hasCol (renameCol t old new) new = true := by
  induction t with
  | nil => simp [hasCol] at h
  | cons p rest ih =>
      obtain ⟨k, v⟩ := p
      by_cases hk : k = old
      · rw [renameCol, if_pos hk]
        simp [hasCol]
      · rw [renameCol, if_neg hk]
        simp only [hasCol, if_neg hk] at h
        by_cases hkn : k = new
        · simp [hasCol, hkn]
        · rw [hasCol, if_neg hkn]
          exact ih h

theorem hasCol_renameCol_other (t : Table) (old new c : String)
    (hne : c ≠ old) (h : hasCol t c = true) :
    hasCol (renameCol t old new) c = true := by
  induction t with
  | nil => simp [hasCol] at h
  | cons p rest ih =>
      obtain ⟨k, v⟩ := p
      by_cases hk : k = old
      · have hkc : ¬k = c := by intro e; exact hne (e.symm.trans hk)
        simp only [hasCol, if_neg hkc] at h
        rw [renameCol, if_pos hk]
        by_cases hnc : new = c
        · simp [hasCol, hnc]
        · rw [hasCol, if_neg hnc]
          exact ih h
      · rw [renameCol, if_neg hk]
        by_cases hc : k = c
        · simp [hasCol, hc]
        · simp only [hasCol, if_neg hc] at h
          rw [hasCol, if_neg hc]
          exact ih h

theorem hasCol_addCol_self (t : Table) (c : String) :
    hasCol (addCol t c) c = true := by
  simp [addCol, hasCol_append, hasCol]

theorem hasCol_addCol_mono (t : Table) (c c' : String)
    (h : hasCol t c = true) : hasCol (addCol t c') c = true := by
  simp [addCol, hasCol_append, h]

theorem reconcile_hasCol_self (t : Table) (d : Directive) :
    hasCol (reconcile t d) d.newName = true := by
  unfold reconcile ensureColumn
  by_cases ho : hasCol t d.oldName = true <;>
    by_cases hn : hasCol t d.newName = true
  · simp [ho, hn, applyAction]
  · by_cases he : d.oldName = d.newName
    · rw [he] at ho; exact absurd ho hn
    · simp [ho, hn, he, applyAction]
      exact hasCol_renameCol_self t d.oldName d.newName ho
  · simp [ho, hn, applyAction]
  · simp [ho, hn, applyAction]
    exact hasCol_addCol_self t d.newName

theorem reconcile_hasCol_preserved (t : Table) (d : Directive) (c : String)
    (h : hasCol t c = true)
    (hc : d.oldName = c → d.oldName = d.newName) :
    hasCol (reconcile t d) c = true := by
  unfold reconcile ensureColumn
  by_cases ho : hasCol t d.oldName = true <;>
    by_cases hn : hasCol t d.newName = true
  · simp [ho, hn, applyAction, h]
  · by_cases he : d.oldName = d.newName
    · rw [he] at ho; exact absurd ho hn
    · simp [ho, hn, he, applyAction]
      have hco : c ≠ d.oldName := by
        intro e; exact he (hc e.symm)
      exact hasCol_renameCol_other t d.oldName d.newName c hco h
  · simp [ho, hn, applyAction, h]
  · simp [ho, hn, applyAction]
    exact hasCol_addCol_mono t c d.newName h

theorem ensureColumn_noop_of_new (t : Table) (d : Directive)
    (h : hasCol t d.newName = true) : ensureColumn t d = SchemaAction.noop := by
  unfold ensureColumn
  simp [h]

theorem runRec_fst_hasCol (ds : List Directive) (t : Table) (c : String)
    (h : hasCol t c = true)
    (hds : ∀ d' ∈ ds, d'.oldName = c → d'.oldName = d'.newName) :
    hasCol (runRec t ds).1 c = true := by
  induction ds generalizing t with
  | nil => simpa [runRec] using h
  | cons d rest ih =>
      simp only [runRec]
      exact ih (reconcile t d)
        (reconcile_hasCol_preserved t d c h (hds d (by simp)))
        (fun d' hd' => hds d' (by simp [hd']))

theorem runRec_all_new_present (ds : List Directive) (hwf : wfDirectives ds) :
    ∀ (t : Table), ∀ d ∈ ds, hasCol (runRec t ds).1 d.newName = true := by
  induction ds with
  | nil => intro t d hd; simp at hd
  | cons d0 rest ih =>
      intro t d hd
      rcases List.mem_cons.mp hd with rfl | hmem
      · simp only [runRec]
        exact runRec_fst_hasCol rest (reconcile t d) d.newName
          (reconcile_hasCol_self t d)
          (fun d' hd' => hwf d (by simp) d' (by simp [hd']))
      · simp only [runRec]
        exact ih (fun a ha b hb => hwf a (by simp [ha]) b (by simp [hb]))
          (reconcile t d0) d hmem

theorem runRec_noop_of_all_present (ds : List Directive) (t : Table)
    (h : ∀ d ∈ ds, hasCol t d.newName = true) :
    runRec t ds = (t, ds.map fun _ => SchemaAction.noop) := by
  induction ds with
  | nil => simp [runRec]
  | cons d rest ih =>
      have hd := ensureColumn_noop_of_new t d (h d (by simp))
      simp only [runRec, hd, applyAction]
      rw [ih (fun d' hd' => h d' (by simp [hd']))]
      simp

theorem colData_hasCol (t : Table) (c : String) (v : Option String)
    (h : colData t c = some v) : hasCol t c = true := by
  induction t with
  | nil => simp [colData] at h
  | cons p rest ih =>
      obtain ⟨k, w⟩ := p
      by_cases hk : k = c
      · simp [hasCol, hk]
      · simp [colData, hk] at h
        simpa [hasCol, hk] using ih h

theorem colData_renameCol (t : Table) (old new : String) (v : Option String)
    (hnew : hasCol t new = false)
    (h : colData t old = some v) :
    colData (renameCol t old new) new = some v := by
  induction t with
  | nil => simp [colData] at h
  | cons p rest ih =>
      obtain ⟨k, w⟩ := p
      have hknew : ¬k = new := by
        intro e; simp [hasCol, e] at hnew
      have hrest : hasCol rest new = false := by
        simpa [hasCol, hknew] using hnew
      by_cases hk : k = old
      · simp only [colData, if_pos hk] at h
        rw [renameCol, if_pos hk]
        simp [colData, h]
      · simp only [colData, if_neg hk] at h
        rw [renameCol, if_neg hk, colData, if_neg hknew]
        exact ih hrest h

/-! ## Claim C1 -/

/-- C1: for every reconciliation directive and every initial column state,
`ensureColumn` issues a rename of the legacy column to the current column
exactly when the legacy column exists, the current column does not, and the
two names differ; when neither column exists it adds the current column with
the supplied definition; and whenever the current column already exists (in
particular when both columns exist) it performs no schema change. -/
theorem ensureColumn_directive_cases (t : Table) (d : Directive) :
    (ensureColumn t d
        = SchemaAction.rename d.table d.oldName d.newName d.definition
      ↔ hasCol t d.oldName = true ∧ hasCol t d.newName = false
          ∧ d.oldName ≠ d.newName)
    ∧ (hasCol t d.oldName = false → hasCol t d.newName = false →
        ensureColumn t d = SchemaAction.addColumn d.table d.newName d.definition)
    ∧ (hasCol t d.newName = true → ensureColumn t d = SchemaAction.noop) := by
  unfold ensureColumn
  by_cases ho : hasCol t d.oldName = true <;>
    by_cases hn : hasCol t d.newName = true <;>
    by_cases he : d.oldName = d.newName <;>
    simp_all

/-- Witness for C1: on a users table holding only the legacy `avatarUrl`
column, the avatar directive issues exactly the rename. -/
theorem ensureColumn_directive_cases_witness :
    (hasCol [("avatarUrl", some "x")] "avatarUrl" = true
      ∧ hasCol [("avatarUrl", some "x")] "avatar_url" = false
      ∧ ("avatarUrl" : String) ≠ "avatar_url")
    ∧ ensureColumn [("avatarUrl", some "x")]
        ⟨"users", "avatarUrl", "avatar_url", "VARCHAR(255)"⟩
        = SchemaAction.rename "users" "avatarUrl" "avatar_url" "VARCHAR(255)" :=
  ⟨⟨by decide, by decide, by decide⟩,
    (ensureColumn_directive_cases [("avatarUrl", some "x")]
        ⟨"users", "avatarUrl", "avatar_url", "VARCHAR(255)"⟩).1.mpr
      ⟨by decide, by decide, by decide⟩⟩

/-! ## Claim C2 -/

/-- C2 counterexample: the claim quantifies over every directive set, but for
the cyclic pair (a to b, b to a) run on a table holding only column a, each
run returns the table to the very same state while still issuing renames:
after a run the first directive's current column b is absent, and a second
run from that converged state again performs schema-altering statements
instead of being a no-op. -/
theorem reconcile_directive_set_cex :
    (runRec [("a", some "v")] cycDirectives).1 = [("a", some "v")]
    ∧ hasCol (runRec [("a", some "v")] cycDirectives).1 "b" = false
    ∧ (runRec (runRec [("a", some "v")] cycDirectives).1 cycDirectives).2
        ≠ [SchemaAction.noop, SchemaAction.noop] := by
  decide

/-- C2 amended: for every directive list in which no directive's legacy
column is another directive's current column (self-rename directives
excepted) and every initial column state, a single run makes every
directive's current column present, the reached state is a fixed point whose
second run issues only no-op statements, and each reconcile step preserves
the legacy column's data into the current column whenever the current column
was absent and the legacy column was the sole source. -/
theorem reconcile_directive_set_converges (ds : List Directive) (t : Table)
    (hwf : wfDirectives ds) :
    (∀ d ∈ ds, hasCol (runRec t ds).1 d.newName = true)
    ∧ runRec (runRec t ds).1 ds
        = ((runRec t ds).1, ds.map fun _ => SchemaAction.noop)
    ∧ ∀ (d : Directive) (s : Table) (v : Option String),
        hasCol s d.newName = false → colData s d.oldName = some v →
        colData (reconcile s d) d.newName = some v := by
  refine ⟨runRec_all_new_present ds hwf t, ?_, ?_⟩
  · exact runRec_noop_of_all_present ds _ (runRec_all_new_present ds hwf t)
  · intro d s v hnew hold
    have ho : hasCol s d.oldName = true := colData_hasCol s d.oldName v hold
    have hne : d.oldName ≠ d.newName := by
      intro e
      rw [e, hnew] at ho
      exact Bool.noConfusion ho
    have hcond : hasCol s d.oldName = true
        ∧ ¬hasCol s d.newName = true ∧ d.oldName ≠ d.newName :=
      ⟨ho, by simp [hnew], hne⟩
    simp only [reconcile, ensureColumn, if_pos hcond, applyAction]
    exact colData_renameCol s d.oldName d.newName v hnew hold

/-- Witness for C2 amended: the users directive set of the seed script is
well-formed, and run on a table holding only the legacy `avatarUrl` column
it ends with the current `avatar_url` column present. -/
theorem reconcile_directive_set_converges_witness :
    wfDirectives usersDirectives
    ∧ hasCol (runRec [("avatarUrl", some "x")] usersDirectives).1
        "avatar_url" = true :=
  ⟨by decide,
    (reconcile_directive_set_converges usersDirectives
        [("avatarUrl", some "x")] (by decide)).1
      ⟨"users", "avatarUrl", "avatar_url", "VARCHAR(255)"⟩ (by decide)⟩

/-! ## Object model lemmas -/

@[simp] theorem getF_nil (k : String) : getF [] k = Val.undef := rfl

@[simp] theorem getF_cons (k' k : String) (v : Val) (r : Row) :
    getF ((k', v) :: r) k = if k' = k then v else getF r k := rfl

@[simp] theorem hasKey_nil (k : String) : hasKey [] k = false := rfl

@[simp] theorem hasKey_cons (k' k : String) (v : Val) (r : Row) :
    hasKey ((k', v) :: r) k = if k' = k then true else hasKey r k := rfl

theorem getF_eq_undef_of_hasKey_false (r : Row) (k : String)
    (h : hasKey r k = false) : getF r k = Val.undef := by
  induction r with
  | nil => rfl
  | cons p rest ih =>
      obtain ⟨kk, vv⟩ := p
      by_cases hk : kk = k
      · simp [hk] at h
      · simp only [getF_cons, hasKey_cons, if_neg hk] at h ⊢
        exact ih h

theorem getF_append (r s : Row) (k : String) :
    getF (r ++ s) k = if hasKey r k then getF r k else getF s k := by
  induction r with
  | nil => simp
  | cons p rest ih =>
      obtain ⟨kk, vv⟩ := p
      by_cases hk : kk = k <;> simp [hk, ih]

theorem hasKey_append (r s : Row) (k : String) :
    hasKey (r ++ s) k = (hasKey r k || hasKey s k) := by
  induction r with
  | nil => simp
  | cons p rest ih =>
      obtain ⟨kk, vv⟩ := p
      by_cases hk : kk = k <;> simp [hk, ih]

@[simp] theorem getF_setIf_ne (r : Row) (k k' : String) (v : Val)
    (h : ¬k = k') : getF (setIf r k v) k' = getF r k' := by
  cases v <;> simp only [setIf, getF_append] <;>
    try rfl
  all_goals
    by_cases hh : hasKey r k' <;>
      simp [hh, h, getF_eq_undef_of_hasKey_false r k']

@[simp] theorem getF_setIf_self (r : Row) (k : String) (v : Val) :
    getF (setIf r k v) k = if hasKey r k then getF r k else v := by
  cases v <;> simp only [setIf, getF_append] <;>
    by_cases hh : hasKey r k <;>
      simp [hh, getF_eq_undef_of_hasKey_false r k]

@[simp] theorem hasKey_setIf_ne (r : Row) (k k' : String) (v : Val)
    (h : ¬k = k') : hasKey (setIf r k v) k' = hasKey r k' := by
  cases v <;> simp [setIf, hasKey_append, h]

@[simp] theorem hasKey_setIf_self (r : Row) (k : String) (v : Val) :
    hasKey (setIf r k v) k = (!isUndef v || hasKey r k) := by
  cases v <;> simp [setIf, hasKey_append, isUndef]

@[simp] theorem isUndef_verifiedStore (v : Val) :
    isUndef (verifiedStore v) = isUndef v := by
  cases v <;> rfl

@[simp] theorem nci_undef_left (b : Val) : nci Val.undef b = b := rfl

@[simp] theorem nci_null_left (b : Val) : nci Val.null b = b := rfl

@[simp] theorem nci_self (v : Val) : nci v v = v := by
  cases v <;> rfl

@[simp] theorem nci_chain1_null (u : Val) :
    nci (nci u Val.null) Val.null = nci u Val.null := by
  cases u <;> rfl

@[simp] theorem nci_chain2_null (u v : Val) :
    nci (nci u (nci v Val.null)) Val.null = nci u (nci v Val.null) := by
  cases u <;> cases v <;> rfl

@[simp] theorem nci_chain3_null (u v w : Val) :
    nci (nci u (nci v (nci w Val.null))) Val.null
      = nci u (nci v (nci w Val.null)) := by
  cases u <;> cases v <;> cases w <;> rfl

/-! ## Claim C3 -/

/-- C3 counterexample: for the user mappers the composition is not
idempotent on persisted rows, which always carry an id: `apiUserToDb` does
not handle the payload's id at all, so the second `toApi` pass loses the id
that the first one returned. -/
theorem user_roundtrip_cex :
    dbUserToApi (some (apiUserToDb (dbUserToApi
        (some [("id", Val.num 1)]))))
      ≠ dbUserToApi (some [("id", Val.num 1)]) := by
  simp [dbUserToApi, apiUserToDb, nci, toNumber, verifiedStore, truthy,
    isUndef, setIf, getF]

/-- C3 amended: the composition toApi of toDb of toApi agrees with toApi for
the article mappers on every raw row; for the user mappers it does so
exactly on rows carrying no id and whose stored verified flag resolves to
the number 0 or 1, since `apiUserToDb` drops the id and renormalizes the
verified flag through truthiness. -/
theorem mapper_roundtrip_amended :
    (∀ x : Row,
      dbArticleToApi (some (apiArticleToDb (dbArticleToApi (some x))))
        = dbArticleToApi (some x))
    ∧ ∀ x : Row,
        getF x "id" = Val.undef →
        (toNumber (nci (getF x "is_verified")
            (nci (getF x "isVerified") (Val.num 0))) = Val.num 0
          ∨ toNumber (nci (getF x "is_verified")
              (nci (getF x "isVerified") (Val.num 0))) = Val.num 1) →
        dbUserToApi (some (apiUserToDb (dbUserToApi (some x))))
          = dbUserToApi (some x) := by
  constructor
  · intro x
    simp [dbArticleToApi, apiArticleToDb, isUndef]
  · intro x hid hv
    rcases hv with hv | hv <;>
      simp [dbUserToApi, apiUserToDb, hid, hv, isUndef, verifiedStore,
        truthy] <;>
      rfl

/-- Witness for C3 amended at the empty row: no id, flag resolving to 0,
and the user round trip reproduces toApi exactly. -/
theorem mapper_roundtrip_amended_witness :
    (getF ([] : Row) "id" = Val.undef
      ∧ toNumber (nci (getF ([] : Row) "is_verified")
          (nci (getF ([] : Row) "isVerified") (Val.num 0))) = Val.num 0)
    ∧ dbUserToApi (some (apiUserToDb (dbUserToApi (some ([] : Row)))))
        = dbUserToApi (some ([] : Row)) :=
  ⟨⟨rfl, rfl⟩, mapper_roundtrip_amended.2 [] rfl (Or.inl rfl)⟩

/-! ## Claim C4 -/

/-- C4 counterexample: the structure and partner mappers do not omit keys
for absent fields: on the empty payload, which has no photoUrl or logoUrl
field, they still emit the photo_url and logo_url keys, holding
`undefined`. -/
theorem apiToDb_absent_key_cex :
    getF ([] : Row) "photoUrl" = Val.undef
    ∧ hasKey (apiStructureToDb (some [])) "photo_url" = true
    ∧ getF ([] : Row) "logoUrl" = Val.undef
    ∧ hasKey (apiPartnerToDb (some [])) "logo_url" = true :=
  ⟨rfl, rfl, rfl, rfl⟩

/-- C4 amended: the user and article mappers omit every key whose source
fields are absent from the payload (the user mapper emits no id key at
all); the structure and partner mappers always emit their three non-id keys
even when the fields are absent, omitting only the id key when absent. -/
theorem apiToDb_omission_amended :
    (∀ p : Row,
      hasKey (apiUserToDb (some p)) "id" = false
      ∧ (getF p "name" = Val.undef →
          hasKey (apiUserToDb (some p)) "name" = false)
      ∧ (getF p "email" = Val.undef →
          hasKey (apiUserToDb (some p)) "email" = false)
      ∧ (getF p "password" = Val.undef →
          hasKey (apiUserToDb (some p)) "password" = false)
      ∧ (getF p "role" = Val.undef →
          hasKey (apiUserToDb (some p)) "role" = false)
      ∧ (getF p "formalPhotoUrl" = Val.undef → getF p "avatarUrl" = Val.undef →
          hasKey (apiUserToDb (some p)) "avatar_url" = false)
      ∧ (getF p "isVerified" = Val.undef →
          hasKey (apiUserToDb (some p)) "is_verified" = false)
      ∧ (getF p "phoneNumber" = Val.undef →
          hasKey (apiUserToDb (some p)) "phone_number" = false)
      ∧ (getF p "mediaName" = Val.undef →
          hasKey (apiUserToDb (some p)) "media_name" = false)
      ∧ (getF p "position" = Val.undef →
          hasKey (apiUserToDb (some p)) "position" = false)
      ∧ (getF p "ukwCertification" = Val.undef →
          hasKey (apiUserToDb (some p)) "ukw_certification" = false))
    ∧ (∀ p : Row,
      (getF p "title" = Val.undef →
          hasKey (apiArticleToDb (some p)) "title" = false)
      ∧ (getF p "content" = Val.undef →
          hasKey (apiArticleToDb (some p)) "content" = false)
      ∧ (getF p "snippet" = Val.undef →
          hasKey (apiArticleToDb (some p)) "snippet" = false)
      ∧ (getF p "status" = Val.undef →
          hasKey (apiArticleToDb (some p)) "status" = false)
      ∧ (getF p "authorId" = Val.undef →
          hasKey (apiArticleToDb (some p)) "authorId" = false)
      ∧ (getF p "editorFeedback" = Val.undef →
          hasKey (apiArticleToDb (some p)) "editor_feedback" = false)
      ∧ (getF p "coverImageUrl" = Val.undef → getF p "imageUrl" = Val.undef →
          hasKey (apiArticleToDb (some p)) "cover_image_url" = false)
      ∧ (getF p "id" = Val.undef →
          hasKey (apiArticleToDb (some p)) "id" = false))
    ∧ (∀ p : Row,
      hasKey (apiStructureToDb (some p)) "name" = true
      ∧ hasKey (apiStructureToDb (some p)) "position" = true
      ∧ hasKey (apiStructureToDb (some p)) "photo_url" = true
      ∧ (getF p "id" = Val.undef →
          hasKey (apiStructureToDb (some p)) "id" = false))
    ∧ (∀ p : Row,
      hasKey (apiPartnerToDb (some p)) "name" = true
      ∧ hasKey (apiPartnerToDb (some p)) "logo_url" = true
      ∧ hasKey (apiPartnerToDb (some p)) "link" = true
      ∧ (getF p "id" = Val.undef →
          hasKey (apiPartnerToDb (some p)) "id" = false)) := by
  refine ⟨fun p => ?_, fun p => ?_, fun p => ?_, fun p => ?_⟩ <;>
    simp +contextual [apiUserToDb, apiArticleToDb, apiStructureToDb,
      apiPartnerToDb, isUndef, verifiedStore]

/-- Witness for C4 amended at the empty payload: an absent name field
produces no name key in the user mapper's result. -/
theorem apiToDb_omission_amended_witness :
    getF ([] : Row) "name" = Val.undef
    ∧ hasKey (apiUserToDb (some [])) "name" = false :=
  ⟨rfl, (apiToDb_omission_amended.1 []).2.1 rfl⟩

/-! ## Claim C5 -/

theorem specResolve_nil (x : Row) (d : Val) : specResolve x [] d = d := rfl

@[simp] theorem specResolve_cons (x : Row) (k : String) (ks : List String)
    (d : Val) :
    specResolve x (k :: ks) d = nci (getF x k) (specResolve x ks d) := by
  rcases h : getF x k <;> simp [specResolve, nci, h]

/-- C5: the row-to-API mappers are total on arbitrary rows (they return an
API row, never an error) and resolve each semantic attribute by checking
the current column name first, then each legacy alias in a fixed priority
order, returning the first non-missing value, else the documented default:
the article cover resolves cover_image_url, then coverImageUrl, then
imageUrl, else null (emitted under both cover fields), editor feedback and
the user avatar, phone, media name, position and certification chains end
in null, and the verified flag is the integer coercion of its chain with
default 0. -/
theorem mapRowToApi_fallback_chain (x : Row) :
    (∃ out, dbArticleToApi (some x) = some out
      ∧ getF out "coverImageUrl"
          = specResolve x ["cover_image_url", "coverImageUrl", "imageUrl"]
              Val.null
      ∧ getF out "imageUrl"
          = specResolve x ["cover_image_url", "coverImageUrl", "imageUrl"]
              Val.null
      ∧ getF out "editorFeedback"
          = specResolve x ["editor_feedback", "editorFeedback"] Val.null)
    ∧ ∃ uout, dbUserToApi (some x) = some uout
      ∧ getF uout "avatarUrl"
          = specResolve x ["avatar_url", "avatarUrl"] Val.null
      ∧ getF uout "phoneNumber"
          = specResolve x ["phone_number", "phoneNumber"] Val.null
      ∧ getF uout "mediaName"
          = specResolve x ["media_name", "mediaName"] Val.null
      ∧ getF uout "position" = specResolve x ["position"] Val.null
      ∧ getF uout "ukwCertification"
          = specResolve x ["ukw_certification", "ukwCertification"] Val.null
      ∧ getF uout "isVerified"
          = toNumber (specResolve x ["is_verified", "isVerified"]
              (Val.num 0)) := by
  constructor
  · refine ⟨_, rfl, ?_, ?_, ?_⟩ <;> simp [dbArticleToApi, specResolve_nil]
  · refine ⟨_, rfl, ?_, ?_, ?_, ?_, ?_, ?_⟩ <;>
      simp [dbUserToApi, specResolve_nil]

/-! ## Claim C6 -/

/-- C6 counterexample: a verified flag stored as the number 2 is emitted as
2 by `dbUserToApi`, not normalized to 0 or 1. -/
theorem isVerified_normalization_cex :
    getF ((dbUserToApi (some [("is_verified", Val.num 2)])).getD [])
        "isVerified" = Val.num 2
    ∧ Val.num 2 ≠ Val.num 0 ∧ Val.num 2 ≠ Val.num 1 := by
  refine ⟨rfl, ?_, ?_⟩ <;> simp

/-- C6 amended: the isVerified field of `dbUserToApi` is the numeric
coercion of the first non-nullish of is_verified, isVerified and 0; it is
exactly 0 or 1 whenever the flag columns hold nothing but absent, null,
boolean, 0 or 1 values (as written by every writer in this codebase), while
any other stored number passes through the coercion unchanged. -/
theorem isVerified_normalized_amended (x : Row)
    (hcur : getF x "is_verified" = Val.undef
      ∨ getF x "is_verified" = Val.null
      ∨ getF x "is_verified" = Val.num 0
      ∨ getF x "is_verified" = Val.num 1
      ∨ getF x "is_verified" = Val.bool true
      ∨ getF x "is_verified" = Val.bool false)
    (hleg : getF x "isVerified" = Val.undef
      ∨ getF x "isVerified" = Val.null
      ∨ getF x "isVerified" = Val.num 0
      ∨ getF x "isVerified" = Val.num 1
      ∨ getF x "isVerified" = Val.bool true
      ∨ getF x "isVerified" = Val.bool false) :
    ∃ out, dbUserToApi (some x) = some out
      ∧ (getF out "isVerified" = Val.num 0
        ∨ getF out "isVerified" = Val.num 1) := by
  refine ⟨_, rfl, ?_⟩
  rcases hcur with h1 | h1 | h1 | h1 | h1 | h1 <;>
    rcases hleg with h2 | h2 | h2 | h2 | h2 | h2 <;>
      simp [h1, h2, nci, toNumber]

/-- Witness for C6 amended: a flag stored as the number 1 is emitted as
exactly 1. -/
theorem isVerified_normalized_amended_witness :
    (getF [("is_verified", Val.num 1)] "is_verified" = Val.num 1
      ∧ getF [("is_verified", Val.num 1)] "isVerified" = Val.undef)
    ∧ ∃ out, dbUserToApi (some [("is_verified", Val.num 1)]) = some out
      ∧ (getF out "isVerified" = Val.num 0
        ∨ getF out "isVerified" = Val.num 1) :=
  ⟨⟨rfl, rfl⟩,
    isVerified_normalized_amended [("is_verified", Val.num 1)]
      (Or.inr (Or.inr (Or.inr (Or.inl rfl)))) (Or.inl rfl)⟩

/-! ## Claim C7 -/

/-- C7: in a batch where exactly one query fails, the aggregate fetch still
returns one row-set per query in the input order: the failing position holds
the empty row-set and every other position holds exactly the rows its query
returned; no error escapes (the result type has no error channel). -/
theorem fetchAll_one_failing
    (runQuery : String → List Val → Except String (List Row))
    (qs : List (String × List Val)) (i : Fin qs.length) (e : String)
    (res : Fin qs.length → List Row)
    (hfail : runQuery (qs.get i).1 (qs.get i).2 = Except.error e)
    (hok : ∀ j : Fin qs.length, j ≠ i →
        runQuery (qs.get j).1 (qs.get j).2 = Except.ok (res j)) :
    (fetchAll runQuery qs).length = qs.length
    ∧ (fetchAll runQuery qs)[i.1]? = some []
    ∧ ∀ j : Fin qs.length, j ≠ i →
        (fetchAll runQuery qs)[j.1]? = some (res j) := by
  simp only [List.get_eq_getElem] at hfail hok
  have key : ∀ j : Fin qs.length,
      (fetchAll runQuery qs)[j.1]?
        = some (safeQuery runQuery qs[j.1].1 qs[j.1].2) := by
    intro j
    have hj : qs[j.1]? = some qs[j.1] := by
      simp [List.getElem?_eq_getElem j.2]
    simp [fetchAll, List.getElem?_map, hj]
  refine ⟨by simp [fetchAll], ?_, ?_⟩
  · rw [key i]
    simp [safeQuery, hfail]
  · intro j hj
    rw [key j]
    simp [safeQuery, hok j hj]

/-- Witness for C7 on a concrete two-query batch in which only the articles
query fails: two results, the failing slot empty, the other populated. -/
theorem fetchAll_one_failing_witness :
    sampleRunQuery "SELECT * FROM articles" [] = Except.error "unknown table"
    ∧ (fetchAll sampleRunQuery sampleQueries).length = 2
    ∧ (fetchAll sampleRunQuery sampleQueries)[1]? = some []
    ∧ (fetchAll sampleRunQuery sampleQueries)[0]? = some sampleRows := by
  have T := fetchAll_one_failing sampleRunQuery sampleQueries ⟨1, by decide⟩
    "unknown table" (fun j => if j.1 = 0 then sampleRows else [])
    rfl
    (fun j hj => by
      rcases j with ⟨jv, hv⟩
      have h2 : jv < 2 := by simpa [sampleQueries] using hv
      have h1 : jv ≠ 1 := fun e => hj (Fin.ext e)
      interval_cases jv
      · rfl
      · exact absurd rfl h1)
  refine ⟨rfl, ?_, ?_, ?_⟩
  · simpa [sampleQueries] using T.1
  · exact T.2.1
  · simpa using T.2.2 ⟨0, by decide⟩ (by decide)

/-! ## Claim C8 -/

/-- C8: when the singleton contact-info query returns zero rows the
aggregate's contactInfo is exactly null; when a row exists it is exactly the
(always non-null) projection of that row by `formatContactFromRow`. -/
theorem formattedContact_singleton (parse : String → Option Val) :
    formattedContact parse [] = none
    ∧ ∀ (r : Row) (rest : List Row),
        formattedContact parse (r :: rest)
            = formatContactFromRow parse (some r)
        ∧ (formatContactFromRow parse (some r)).isSome = true :=
  ⟨rfl, fun _ _ => ⟨rfl, rfl⟩⟩

/-! ## Claim C9 -/

/-- C9: whenever the site-profile row's mission column holds a string that
JSON.parse rejects, or is absent, or is null, the formatted profile exists
(no parse error escapes) and its mission field is exactly the empty list. -/
theorem formattedProfile_mission_defensive (parse : String → Option Val)
    (r : Row) (rest : List Row)
    (h : (∃ s, getF r "mission" = Val.str s ∧ parse s = none)
      ∨ getF r "mission" = Val.undef ∨ getF r "mission" = Val.null) :
    ∃ out, formattedProfile parse (r :: rest) = some out
      ∧ getF out "mission" = Val.arr [] := by
  refine ⟨_, rfl, ?_⟩
  rcases h with ⟨s, hs, hp⟩ | h | h
  · simp [hs, hp]
  · simp [h, jsOr, truthy]
  · simp [h, jsOr, truthy]

/-- Witness for C9: a mission column holding the literal text not-json,
with a JSON.parse that rejects it, maps to the empty mission list. -/
theorem formattedProfile_mission_defensive_witness :
    ((∃ s, getF [("mission", Val.str "not-json")] "mission" = Val.str s
        ∧ noParse s = none)
      ∨ getF [("mission", Val.str "not-json")] "mission" = Val.undef
      ∨ getF [("mission", Val.str "not-json")] "mission" = Val.null)
    ∧ ∃ out, formattedProfile noParse [[("mission", Val.str "not-json")]]
          = some out
      ∧ getF out "mission" = Val.arr [] :=
  ⟨Or.inl ⟨"not-json", rfl, rfl⟩,
    formattedProfile_mission_defensive noParse
      [("mission", Val.str "not-json")] [] (Or.inl ⟨"not-json", rfl, rfl⟩)⟩

/-! ## Claim C10 -/

/-- C10: every row-to-API mapper (users, partners, structure, articles,
contact) returns exactly null on a null or missing row. -/
theorem mappers_null_row (parse : String → Option Val) :
    dbUserToApi none = none
    ∧ dbPartnerToApi none = none
    ∧ dbStructureToApi none = none
    ∧ dbArticleToApi none = none
    ∧ formatContactFromRow parse none = none :=
  ⟨rfl, rfl, rfl, rfl, rfl⟩
